import Mathlib

/-!
# Verification of the Review Orchestration Core of ai-linter

Shallow embedding of the orchestration core of the ai-linter CLI:
identity resolution with ordered fallback (`github-helper.js`,
`#getCurrentIdentity` and the three probe methods), pending-review
reconciliation (`removeAllPendingReviewsFromTool`,
`#filterReviewsByIdentity`, `#deletePendingReview`), permission
evaluation (`canUseRequestChanges`, `#canAppRequestChanges`), the task
brief generator (`generate-codex-prompt.js`) and the supervised
subprocess lifecycle of `runCodexReview` (`ai-linter.js`).

GitHub API interactions are modelled by an environment `Env` that fixes
the response of every endpoint the code calls; a response is
`Except String _`, where `.error` models a rejected promise (a thrown
JavaScript error).  Each embedded operation returns, besides its result,
the list of platform API requests it issued, so that claims about "no
further API requests" are directly expressible.  JavaScript `try`/
`catch` blocks are translated as matches on the `Except` value; the
mutable `#currentIdentity` cache field is passed as explicit state
(`Option Identity`, in: current cache, out: cache after the call).
-/

namespace AiLinter

/-- The `type` tag of a resolved identity: the JS code stores the strings
`'user'`, `'app'` and `'bot'`. -/
inductive IdKind where
  | user
  | app
  | bot
deriving DecidableEq, Repr

/-- The acting principal produced by `#getCurrentIdentity`.  The JS value
is a plain object `{ type, id, login, name }` (the user probe spreads the
whole authenticated-user object; only these fields are ever read). -/
structure Identity where
  type : IdKind
  id : Nat
  login : String
  name : String
deriving DecidableEq, Repr

/-- Data of `octokit.rest.users.getAuthenticated` /
`users.getByUsername` / the `user` object of a PR: the fields the code
reads.  An absent `name` is modelled as `""` (JS `null`/`undefined` are
falsy, exactly like the empty string in every use site). -/
structure UserData where
  id : Nat
  login : String
  name : String
deriving DecidableEq, Repr

/-- Data of `octokit.rest.apps.getAuthenticated`. -/
structure AppData where
  id : Nat
  slug : String
  name : String
deriving DecidableEq, Repr

/-- The `account` object of an installation (`installation.data.account`):
`type` is `"Organization"`, `"User"`, or something else. -/
structure Account where
  id : Nat
  type : String
deriving DecidableEq, Repr

/-- Data of `octokit.rest.apps.getRepoInstallation`. -/
structure RepoInstallation where
  id : Nat
  account : Account
deriving DecidableEq, Repr

/-- Data of `octokit.rest.apps.getInstallation({installation_id})`: the
code reads `installation.app.slug/id/name`. -/
structure InstallationData where
  appId : Nat
  appSlug : String
  appName : String
deriving DecidableEq, Repr

/-- Data of `octokit.rest.apps.listReposAccessibleToInstallation`.  The
code checks `data.repositories.length > 0` and then returns
`data.installation_id`, which may be absent (`Option`). -/
structure AccessibleRepos where
  repositories : List Nat
  installationId : Option Nat
deriving DecidableEq, Repr

/-- The author reference on a review object (`review.user`): id, login
and the kind hint `type` (`"Bot"` for bot accounts). -/
structure ReviewUser where
  id : Nat
  login : String
  type : String
deriving DecidableEq, Repr

/-- A review on a PR: `review.id`, `review.state` (`"PENDING"` etc.) and
its author. -/
structure Review where
  id : Nat
  state : String
  user : ReviewUser
deriving DecidableEq, Repr

/-- One platform API request, as issued by the embedded code.  The
constructors correspond one-to-one to the octokit endpoints the helper
calls. -/
inductive ApiCall where
  | usersGetAuthenticated
  | appsGetAuthenticated
  | appsGetRepoInstallation (owner repo : String)
  | appsListReposAccessible
  | appsGetInstallation (installationId : Nat)
  | usersGetByUsername (username : String)
  | pullsGet (owner repo : String) (pullNumber : Nat)
  | pullsListReviews (owner repo : String) (pullNumber : Nat)
  | pullsDeletePendingReview (owner repo : String) (pullNumber reviewId : Nat)
deriving DecidableEq, Repr

/-- The platform API: a fixed response for every endpoint.  `.error`
models a rejected promise.  `authHeader` models
`octokit.request.defaults.headers.authorization` (not a request). -/
structure Env where
  usersGetAuthenticated : Except String UserData
  appsGetAuthenticated : Except String AppData
  appsGetRepoInstallation : String → String → Except String RepoInstallation
  appsListReposAccessible : Except String AccessibleRepos
  appsGetInstallation : Nat → Except String InstallationData
  usersGetByUsername : String → Except String UserData
  pullsGet : String → String → Nat → Except String UserData
  pullsListReviews : String → String → Nat → Except String (List Review)
  pullsDeletePendingReview : String → String → Nat → Nat → Except String Unit
  authHeader : String

/-- JS `s.includes(t)`: substring containment; `includes('')` is true.
For a nonempty needle, `String.splitOn` produces one segment more than
the number of (leftmost, non-overlapping) occurrences. -/
def jsIncludes (s t : String) : Bool :=
  if t = "" then true else decide (2 ≤ (s.splitOn t).length)

/-- The regex search `authHeader.match(/installation\/(\d+)/)` followed
by `parseInt(match[1])`: the digit run right after the first occurrence
of `"installation/"` that is followed by at least one digit.  (The
pattern has no self-overlap, so leftmost non-overlapping occurrences are
all occurrences.) -/
def parseInstallationIdFromHeader (h : String) : Option Nat :=
  match ((h.splitOn "installation/").drop 1).find?
      (fun seg => seg.toList.headD 'x' |>.isDigit) with
  | some seg =>
    let digits := seg.toList.takeWhile Char.isDigit
    some (String.mk digits).toNat!
  | none => none

/-- Embeds `#tryGetUserIdentity` (github-helper.js): probe
`users.getAuthenticated`; its own `try`/`catch` turns every failure into
`null`. -/
def tryGetUserIdentity (env : Env) : Option Identity × List ApiCall :=
  (match env.usersGetAuthenticated with
    | .ok u => some { type := .user, id := u.id, login := u.login, name := u.name }
    | .error _ => none,
   [ApiCall.usersGetAuthenticated])

/-- Embeds `#tryGetAppIdentity` (github-helper.js): probe
`apps.getAuthenticated`; failures are caught and become `null`. -/
def tryGetAppIdentity (env : Env) : Option Identity × List ApiCall :=
  (match env.appsGetAuthenticated with
    | .ok a => some { type := .app, id := a.id, login := a.slug, name := a.name }
    | .error _ => none,
   [ApiCall.appsGetAuthenticated])

/-- Embeds `#getInstallationId(owner, repo)` (github-helper.js): method 1 is a
repo-scoped lookup (its inner `try` falls through on failure), method 2
is `listReposAccessibleToInstallation` (a failure here is caught by the
function's outer `catch`, which returns `null` without trying method 3;
when the repository list is nonempty the possibly-absent
`installation_id` is returned without falling through), method 3 parses
the auth header. -/
def getInstallationId (env : Env) (owner repo : String) :
    Option Nat × List ApiCall :=
  let (m1, log1) :=
    if owner ≠ "" ∧ repo ≠ "" then
      (match env.appsGetRepoInstallation owner repo with
        | .ok inst => some inst.id
        | .error _ => none,
       [ApiCall.appsGetRepoInstallation owner repo])
    else (none, [])
  match m1 with
  | some instId => (some instId, log1)
  | none =>
    let log2 := log1 ++ [ApiCall.appsListReposAccessible]
    match env.appsListReposAccessible with
    | .error _ => (none, log2)
    | .ok data =>
      if 0 < data.repositories.length then (data.installationId, log2)
      else if env.authHeader ≠ "" ∧ jsIncludes env.authHeader "installation" then
        (parseInstallationIdFromHeader env.authHeader, log2)
      else (none, log2)

/-- JS falsiness of a number held in an `Option`: `undefined`, `null` and
`0` are falsy. -/
def falsyNat : Option Nat → Bool
  | none => true
  | some n => n = 0

/-- Embeds `#tryGetBotIdentity(owner, repo)` (github-helper.js, the
installation-based version): resolve an installation id, fetch the
installation, derive the conventional `{app.slug}[bot]` account; if that
user lookup fails, fall back to a synthetic identity from the app itself.
Any other failure is caught and becomes `null`. -/
def tryGetBotIdentity (env : Env) (owner repo : String) :
    Option Identity × List ApiCall :=
  let (instId?, log1) := getInstallationId env owner repo
  if falsyNat instId? then (none, log1)
  else
    let instId := instId?.getD 0
    let log2 := log1 ++ [ApiCall.appsGetInstallation instId]
    match env.appsGetInstallation instId with
    | .error _ => (none, log2)
    | .ok inst =>
      let botLogin := inst.appSlug ++ "[bot]"
      let log3 := log2 ++ [ApiCall.usersGetByUsername botLogin]
      match env.usersGetByUsername botLogin with
      | .ok botUser =>
        (some { type := .bot, id := botUser.id, login := botUser.login,
                name := if botUser.name ≠ "" then botUser.name else inst.appName }, log3)
      | .error _ =>
        (some { type := .bot, id := inst.appId, login := botLogin,
                name := inst.appName }, log3)

/-- Embeds `#getCurrentIdentity(owner, repo)` (github-helper.js): return the
cached identity if present; otherwise run the three probes in order with
JS `||` short-circuiting, throw `'Unable to determine authentication
identity'` if all are `null`, and cache the winner.  Result: (outcome,
cache after the call, API requests issued). -/
def getCurrentIdentity (env : Env) (cache : Option Identity)
    (owner repo : String) :
    Except String Identity × Option Identity × List ApiCall :=
  match cache with
  | some i => (.ok i, some i, [])
  | none =>
    let (u, log1) := tryGetUserIdentity env
    match u with
    | some i => (.ok i, some i, log1)
    | none =>
      let (a, log2) := tryGetAppIdentity env
      match a with
      | some i => (.ok i, some i, log1 ++ log2)
      | none =>
        let (b, log3) := tryGetBotIdentity env owner repo
        match b with
        | some i => (.ok i, some i, log1 ++ log2 ++ log3)
        | none =>
          (.error "Unable to determine authentication identity", none,
           log1 ++ log2 ++ log3)

/-- Modelled from the spec: "Ordered fallback strategies (first success
wins)" — the first non-`none` element of a list of probe outcomes. -/
def firstSuccess (probes : List (Option Identity)) : Option Identity :=
  match probes with
  | [] => none
  | some i :: _ => some i
  | none :: rest => firstSuccess rest

/-- Modelled from the spec: `resolveIdentity` returns the first
successful strategy among the user probe, the app probe and the
installation/bot probe, and fails only if every strategy is exhausted. -/
def specResolveIdentity (env : Env) (owner repo : String) :
    Except String Identity :=
  match firstSuccess
      [(tryGetUserIdentity env).1, (tryGetAppIdentity env).1,
       (tryGetBotIdentity env owner repo).1] with
  | some i => .ok i
  | none => .error "Unable to determine authentication identity"

/-- Embeds `#filterReviewsByIdentity(reviews, currentIdentity)`
(github-helper.js): keep the `'PENDING'` reviews, then apply the
identity-kind-specific attribution rule (app: id, login, or bot-flagged
author; bot: login, or bot-flagged author whose login contains the
identity's name; otherwise: exact id). -/
def filterReviewsByIdentity (reviews : List Review) (ci : Identity) :
    List Review :=
  let pendingReviews := reviews.filter (fun r => r.state == "PENDING")
  match ci.type with
  | .app =>
    pendingReviews.filter (fun r =>
      r.user.id == ci.id || r.user.login == ci.login || r.user.type == "Bot")
  | .bot =>
    pendingReviews.filter (fun r =>
      r.user.login == ci.login ||
        (r.user.type == "Bot" && jsIncludes r.user.login ci.name))
  | .user =>
    pendingReviews.filter (fun r => r.user.id == ci.id)

/-- Embeds `#deletePendingReview` (github-helper.js): one deletion request; its
own `try`/`catch` converts failure into the return value `false`, so no
error ever escapes. -/
def deletePendingReview (env : Env) (owner repo : String)
    (pullNumber reviewId : Nat) : Bool × List ApiCall :=
  (match env.pullsDeletePendingReview owner repo pullNumber reviewId with
    | .ok _ => true
    | .error _ => false,
   [ApiCall.pullsDeletePendingReview owner repo pullNumber reviewId])

/-- Embeds `#getPendingReviewsFromTool` (github-helper.js): `Promise.all` of the
review-list fetch and identity resolution, then the attribution filter.
A failure of either concurrent arm rejects the whole call (no `catch`
here); the identity cache write still happens when resolution itself
succeeded. -/
def getPendingReviewsFromTool (env : Env) (cache : Option Identity)
    (owner repo : String) (pullNumber : Nat) :
    Except String (List Review) × Option Identity × List ApiCall :=
  let (idRes, cache', idLog) := getCurrentIdentity env cache owner repo
  let log := ApiCall.pullsListReviews owner repo pullNumber :: idLog
  match env.pullsListReviews owner repo pullNumber, idRes with
  | .ok reviews, .ok ci => (.ok (filterReviewsByIdentity reviews ci), cache', log)
  | .error e, _ => (.error e, cache', log)
  | _, .error e => (.error e, cache', log)

/-- Embeds `removeAllPendingReviewsFromTool` (github-helper.js, the enabled
version): fetch the attributable pending reviews (this fetch may
propagate an error), return early when there are none, otherwise delete
each one via `Promise.allSettled`, recording per-item success.  The
result component is the per-item `(review id, deletion succeeded)` list;
the JS code reduces it to a logged success count. -/
def removeAllPendingReviewsFromTool (env : Env) (cache : Option Identity)
    (owner repo : String) (pullNumber : Nat) :
    Except String (List (Nat × Bool)) × Option Identity × List ApiCall :=
  match getPendingReviewsFromTool env cache owner repo pullNumber with
  | (.error e, cache', log) => (.error e, cache', log)
  | (.ok pendingReviews, cache', log) =>
    if pendingReviews.length = 0 then (.ok [], cache', log)
    else
      (.ok (pendingReviews.map (fun r =>
          (r.id, (deletePendingReview env owner repo pullNumber r.id).1))),
       cache',
       log ++ pendingReviews.map (fun r =>
          ApiCall.pullsDeletePendingReview owner repo pullNumber r.id))

/-- Embeds `removeAllPendingReviewsFromTool` as shipped in the current
`bin/src/github-helper.js`: its first statement is a bare `return;`, so
the whole reconciliation body that follows it (identical to
`removeAllPendingReviewsFromTool` above) is unreachable.  The call
returns `undefined` at once: no request is issued and the identity cache
is untouched. -/
def removeAllPendingReviewsFromToolShipped (_env : Env)
    (cache : Option Identity) (_owner _repo : String) (_pullNumber : Nat) :
    Except String (List (Nat × Bool)) × Option Identity × List ApiCall :=
  (.ok [], cache, [])

/-- Embeds `#canAppRequestChanges(repoOwner, repoName, prAuthor)`
(github-helper.js): look up the repo installation; an organization
installation may always request changes, a user installation only when
the installing user is not the PR author; any failure or other account
type yields `false` (own `try`/`catch`). -/
def canAppRequestChanges (env : Env) (owner repo : String)
    (prAuthor : UserData) : Bool × List ApiCall :=
  (match env.appsGetRepoInstallation owner repo with
    | .ok installation =>
      if installation.account.type == "Organization" then true
      else if installation.account.type == "User" then
        decide (prAuthor.id ≠ installation.account.id)
      else false
    | .error _ => false,
   [ApiCall.appsGetRepoInstallation owner repo])

/-- Embeds `canUseRequestChanges(repoOwner, repoName, prNumber)`
(github-helper.js): falsy-argument guard, then `Promise.all` of the PR
fetch and identity resolution inside a `try` whose `catch` returns
`false`; a user/bot identity compares ids with the PR author, an app
identity delegates to `#canAppRequestChanges`.  Arguments are `Option`s
so that the JS falsy values (`undefined`, `''`, `0`) are expressible. -/
def canUseRequestChanges (env : Env) (cache : Option Identity)
    (repoOwner repoName : Option String) (prNumber : Option Nat) :
    Bool × Option Identity × List ApiCall :=
  match repoOwner, repoName, prNumber with
  | some owner, some repo, some pullNumber =>
    if owner = "" ∨ repo = "" ∨ pullNumber = 0 then (false, cache, [])
    else
      let (idRes, cache', idLog) := getCurrentIdentity env cache owner repo
      let log := ApiCall.pullsGet owner repo pullNumber :: idLog
      match env.pullsGet owner repo pullNumber, idRes with
      | .ok prAuthor, .ok ci =>
        match ci.type with
        | .app =>
          let (b, appLog) := canAppRequestChanges env owner repo prAuthor
          (b, cache', log ++ appLog)
        | _ => (decide (prAuthor.id ≠ ci.id), cache', log)
      | .error _, _ => (false, cache', log)
      | _, .error _ => (false, cache', log)
  | _, _, _ => (false, cache, [])

/-- The permission evaluator's case analysis with the three platform
answers it consumes as explicit arguments (PR fetch, identity
resolution, installation lookup); `canUseRequestChanges` computes
exactly this on truthy arguments (see
`canUseRequestChanges_characterization`). -/
def permissionResult (prRes : Except String UserData)
    (idRes : Except String Identity)
    (instRes : Except String RepoInstallation) : Bool :=
  match prRes, idRes with
  | .ok prAuthor, .ok ci =>
    match ci.type with
    | IdKind.app =>
      match instRes with
      | .ok installation =>
        if installation.account.type == "Organization" then true
        else if installation.account.type == "User" then
          decide (prAuthor.id ≠ installation.account.id)
        else false
      | .error _ => false
    | _ => decide (prAuthor.id ≠ ci.id)
  | _, _ => false

/-- Modelled from the spec: "a principal may issue a changes-requested
verdict only if it is not the PR's author; for a user/bot identity this
is a direct id comparison; an application may always request changes on
an organization installation, and on a user installation only if the
installing user is not the PR author". -/
def specSelfReviewRule (ci : Identity) (prAuthorId : Nat)
    (installingAccount : Account) : Bool :=
  match ci.type with
  | .app =>
    if installingAccount.type = "Organization" then true
    else if installingAccount.type = "User" then
      decide (prAuthorId ≠ installingAccount.id)
    else false
  | _ => decide (prAuthorId ≠ ci.id)

/-- The PR context interpolated into the task brief
(`generate-codex-prompt.js` reads `prNumber`, `baseRef`, `headRef`,
`repoName`, `repoOwner`; an absent `headRef` is modelled as `""`,
falsy exactly like JS `undefined` at the two `||` use sites). -/
structure PrInfo where
  prNumber : Nat
  baseRef : String
  headRef : String
  repoOwner : String
  repoName : String
deriving DecidableEq, Repr

/-- Embeds `generateCodexPrompt(rulesPath, prInfo)` (generate-codex-prompt.js):
the natural-language task brief.  The function takes exactly these two
parameters; the template is a fixed text with the rules path and the PR
context interpolated. -/
def generateCodexPrompt (rulesPath : String) (prInfo : PrInfo) : String :=
  "You are an AI code linter reviewing a Pull Request. \n\n" ++
  "Now, perform the following tasks in order:\n" ++
  "  1. Create a new pending PR review with the Github MCP tool \"create_pending_pull_request_review\" or use your existing pending review if it exists.\n" ++
  "  2. Analyze the style guidelines, then assert if the PR is a small or a large change.\n" ++
  "  3. Analyze the PR changes and add each style violation using the Github MCP tool \"add_comment_to_pending_review\". Add each violation when you find it, do not wait until the end.\n" ++
  "  4. Submit the PR review using the Github MCP tool \"submit_pending_pull_request_review\" by setting the event to \"REQUEST_CHANGES\" if any issues are found, or \"COMMENT\" if no issues are found. If you cannot use the \"REQUEST_CHANGES\" event, use the \"COMMENT\" event instead.\n\n" ++
  "Your tasks includes the following rules:\n\n" ++
  "**Read the style guidelines** from the file: " ++ rulesPath ++ "\n\n" ++
  "**Analyze the PR changes**: \n" ++
  "  - PR #" ++ toString prInfo.prNumber ++ "\n" ++
  "  - Base branch: " ++ prInfo.baseRef ++ "\n" ++
  "  - Head branch: " ++
    (if prInfo.headRef = "" then "current branch" else prInfo.headRef) ++ "\n" ++
  "  - Repository name: " ++ prInfo.repoName ++ "\n" ++
  "  - Repository owner: " ++ prInfo.repoOwner ++ "\n\n" ++
  "**Review process**:\n" ++
  "  - Use git to examine the diff between " ++ prInfo.baseRef ++ " and " ++
    (if prInfo.headRef = "" then "HEAD" else prInfo.headRef) ++ "\n" ++
  "  - Focus on changed files and lines\n" ++
  "  - Consider the broader codebase context. \n" ++
  "    - When reading a file from the diff, review also the full file and the relevant references from the codebase to determine how the change affects the related files.\n" ++
  "  - Compare changes against the style guidelines\n" ++
  "    - If a change causes a violation outside the diff lines, report it as well on the changed lines but with a reference to the impacted line number(s) and file(s). \n" ++
  "      - For example, if a change in one file changes the behavior of a function and the function name is no longer descriptive, report it in the changed lines but mention where the function is defined and what the new name should be.\n\n" ++
  "**Provide feedback**:\n" ++
  "  - Use the GitHub MCP to post review comments on specific lines where issues are found\n" ++
  "  - For each issue, specify:\n" ++
  "    - The file and line number\n" ++
  "    - Which style rule is violated\n" ++
  "    - A clear explanation of the issue\n" ++
  "    - Suggested fix if applicable\n" ++
  "  - NEVER include emojies in your review comments\n" ++
  "  - If you find no issues, update the body of the PR review saying the PR looks good from a style perspective.\n" ++
  "  - For each issue found, post an individual comment to the existing PR review including:\n" ++
  "    - The file and line number\n" ++
  "    - Which style rule is violated\n" ++
  "    - A clear explanation of the issue\n" ++
  "    - Suggested fix if applicable\n\n" ++
  "**Be constructive**: Focus on helping improve code quality, not just finding problems.\n\n" ++
  "**Limitations**:\n" ++
  "  - You can ONLY use the GitHub MCP tools provided in this prompt.\n" ++
  "  - You must NEVER use the Github MCP tool github.create_pull_request_review.\n"

/-- The call in `runCodexReview` (ai-linter.js):
`generateCodexPrompt(rulesPath, prInfo, canUseRequestChanges)`.  The
callee declares only two parameters, so per JavaScript semantics the
third argument is silently dropped. -/
def runCodexReviewPrompt (rulesPath : String) (prInfo : PrInfo)
    (_canRequestChangesFlag : Bool) : String :=
  generateCodexPrompt rulesPath prInfo

/-- Events observable by the supervision logic of `runCodexReview` after
the agent subprocess has been spawned: a cancellation signal delivered to
the parent (SIGINT or SIGTERM, both registered to the same `cleanup`),
the child's `close` event with its exit code and terminating signal, or
the child's `error` event (spawn failure). -/
inductive SessionEvent where
  | cancelSignal
  | childClose (code : Option Int) (signal : Option String)
  | childError (msg : String)
deriving DecidableEq, Repr

/-- The terminal status of a review session, as produced by the promise
in `runCodexReview`: resolve on exit code 0, reject with the interruption
error, the nonzero-exit error, or the spawn error. -/
inductive SessionOutcome where
  | completed
  | interruptedSession
  | failedWith (code : Option Int)
  | spawnError (msg : String)
deriving DecidableEq, Repr

/-- Supervision state of `runCodexReview`: the `wasInterrupted` flag set
by `cleanup`, whether the SIGINT/SIGTERM listeners are still registered,
and the settled outcome of the promise (a promise settles once). -/
structure SessionState where
  wasInterrupted : Bool
  listenersActive : Bool
  outcome : Option SessionOutcome
deriving DecidableEq, Repr

/-- State right after `spawn`: no interruption seen, both signal
listeners registered, promise pending. -/
def initialSessionState : SessionState :=
  { wasInterrupted := false, listenersActive := true, outcome := none }

/-- One event of `runCodexReview`'s supervision logic.  A cancellation
signal runs `cleanup` (sets `wasInterrupted`, forwards SIGTERM to the
child) while the listeners are registered.  The `close` handler
deregisters the listeners and settles the promise: interrupted when the
flag is set or the child died by SIGTERM/SIGINT, completed on exit code
0, failed otherwise.  The `error` handler deregisters and rejects.  A
settled promise is never re-settled. -/
def sessionStep (s : SessionState) (e : SessionEvent) : SessionState :=
  match e with
  | .cancelSignal =>
    if s.listenersActive then { s with wasInterrupted := true } else s
  | .childClose code signal =>
    match s.outcome with
    | some _ => s
    | none =>
      { wasInterrupted := s.wasInterrupted, listenersActive := false,
        outcome := some
          (if s.wasInterrupted || signal == some "SIGTERM"
              || signal == some "SIGINT" then
            .interruptedSession
          else if code == some 0 then .completed
          else .failedWith code) }
  | .childError _msg =>
    match s.outcome with
    | some _ => s
    | none =>
      { s with listenersActive := false,
               outcome := some (.spawnError _msg) }

/-- A whole session after spawn: fold the supervision logic over the
observed event sequence. -/
def runSession (events : List SessionEvent) : SessionState :=
  events.foldl sessionStep initialSessionState

/-! ## Sample data used by the witness theorems -/

/-- A sample authenticated user. -/
def sampleUser : UserData := { id := 7, login := "alice", name := "Alice" }

/-- A sample PR author distinct from `sampleUser`. -/
def sampleAuthor : UserData := { id := 9, login := "bob", name := "Bob" }

/-- A baseline environment: personal-access-token auth (the user probe
succeeds, everything app/installation related fails), one PR authored by
`sampleAuthor`, no reviews, deletions succeed. -/
def env0 : Env where
  usersGetAuthenticated := .ok sampleUser
  appsGetAuthenticated := .error "requires app auth"
  appsGetRepoInstallation := fun _ _ => .error "not installed"
  appsListReposAccessible := .error "not an installation token"
  appsGetInstallation := fun _ => .error "unknown installation"
  usersGetByUsername := fun _ => .error "unknown user"
  pullsGet := fun _ _ _ => .ok sampleAuthor
  pullsListReviews := fun _ _ _ => .ok []
  pullsDeletePendingReview := fun _ _ _ _ => .ok ()
  authHeader := ""

/-- The identity `env0` resolves to. -/
def sampleIdentity : Identity :=
  { type := .user, id := 7, login := "alice", name := "Alice" }

/-- A pending review authored by the resolved sample identity. -/
def reviewA : Review :=
  { id := 1, state := "PENDING",
    user := { id := 7, login := "alice", type := "User" } }

/-- A second pending review authored by the resolved sample identity. -/
def reviewB : Review :=
  { id := 2, state := "PENDING",
    user := { id := 7, login := "alice", type := "User" } }

/-- An installation on an organization account. -/
def orgInstallation : RepoInstallation :=
  { id := 11, account := { id := 20, type := "Organization" } }

/-- Variant of `env0` with an app installation available (for the permission
theorems). -/
def envPerm : Env :=
  { env0 with appsGetRepoInstallation := fun _ _ => .ok orgInstallation }

/-- Variant of `env0` with one attributable pending review on the PR. -/
def envOnePending : Env :=
  { env0 with pullsListReviews := fun _ _ _ => .ok [reviewA] }

/-- Variant of `env0` with two attributable pending reviews, where deleting the
first fails with a simulated API error and deleting the second
succeeds. -/
def envTwoPending : Env :=
  { env0 with
    pullsListReviews := fun _ _ _ => .ok [reviewA, reviewB],
    pullsDeletePendingReview := fun _ _ _ reviewId =>
      if reviewId = 1 then .error "HTTP 500" else .ok () }

/-! ## Theorems -/

/-- C6: identity resolution tries the authenticated-user probe, the
authenticated-application probe and the installation/bot probe in this
fixed order and returns the first success, regardless of later
strategies; each probe is `Option`-valued (its own `catch` keeps probe
failures from propagating), and the resolver's identity-unresolved error
occurs exactly when all three probes return `null` — stated as: on a
cold cache the resolver computes precisely the spec-side first-success
fold over the three probe outcomes, with the error exactly in the
all-`none` case. -/
theorem getCurrentIdentity_first_success (env : Env) (owner repo : String) :
    (getCurrentIdentity env none owner repo).1
      = specResolveIdentity env owner repo := by
  unfold getCurrentIdentity specResolveIdentity
  rcases hu : tryGetUserIdentity env with ⟨u, lu⟩
  cases u with
  | some i => simp [hu, firstSuccess]
  | none =>
    rcases ha : tryGetAppIdentity env with ⟨a, la⟩
    cases a with
    | some i => simp [hu, ha, firstSuccess]
    | none =>
      rcases hb : tryGetBotIdentity env owner repo with ⟨b, lb⟩
      cases b with
      | some i => simp [hu, ha, hb, firstSuccess]
      | none => simp [hu, ha, hb, firstSuccess]

/-- C7: the identity is computed at most once and is immutable
afterwards: whenever a resolver call succeeds, every later call on the
same instance — even with a different (owner, repo) pair and even under
a changed platform behaviour — returns the cached identity, leaves the
cache unchanged, and issues no platform API request at all. -/
theorem getCurrentIdentity_cached (env : Env) (cache : Option Identity)
    (owner repo : String) (i : Identity) (cache' : Option Identity)
    (log : List ApiCall)
    (h : getCurrentIdentity env cache owner repo = (.ok i, cache', log))
    (env' : Env) (owner' repo' : String) :
    getCurrentIdentity env' cache' owner' repo' = (.ok i, some i, []) := by
  have hc : cache' = some i := by
    unfold getCurrentIdentity at h
    cases cache with
    | some j =>
      simp only [Prod.mk.injEq] at h
      obtain ⟨h1, h2, -⟩ := h
      cases h1
      exact h2.symm
    | none =>
      rcases hu : tryGetUserIdentity env with ⟨u, lu⟩
      rw [hu] at h
      cases u with
      | some j =>
        simp only [Prod.mk.injEq] at h
        obtain ⟨h1, h2, -⟩ := h
        cases h1
        exact h2.symm
      | none =>
        rcases ha : tryGetAppIdentity env with ⟨a, la⟩
        rw [ha] at h
        cases a with
        | some j =>
          simp only [Prod.mk.injEq] at h
          obtain ⟨h1, h2, -⟩ := h
          cases h1
          exact h2.symm
        | none =>
          rcases hb : tryGetBotIdentity env owner repo with ⟨b, lb⟩
          rw [hb] at h
          cases b with
          | some j =>
            simp only [Prod.mk.injEq] at h
            obtain ⟨h1, h2, -⟩ := h
            cases h1
            exact h2.symm
          | none =>
            simp only [Prod.mk.injEq] at h
            exact Except.noConfusion h.1
  subst hc
  rfl

/-- Witness for C7: under `env0` a first resolution succeeds with the
sample user identity, and a second call — with a different repository
and an environment whose every endpoint fails — returns it from the
cache with an empty request log. -/
theorem getCurrentIdentity_cached_witness :
    getCurrentIdentity
        { env0 with
          usersGetAuthenticated := .error "token revoked",
          pullsGet := fun _ _ _ => .error "down" }
        ((getCurrentIdentity env0 none "owner" "repo").2.1) "other" "elsewhere"
      = (.ok sampleIdentity, some sampleIdentity, []) :=
  getCurrentIdentity_cached env0 none "owner" "repo" sampleIdentity
    (some sampleIdentity) [ApiCall.usersGetAuthenticated] (by rfl)
    _ "other" "elsewhere"

/-- C8: review attribution selects exactly the pending-state reviews
matching the identity-kind-specific rule — membership characterization
of `#filterReviewsByIdentity` for each identity kind; a non-pending
review is never selected. -/
theorem filterReviewsByIdentity_spec (reviews : List Review)
    (ci : Identity) (r : Review) :
    r ∈ filterReviewsByIdentity reviews ci ↔
      r ∈ reviews ∧ r.state = "PENDING" ∧
        (match ci.type with
         | .app => r.user.id = ci.id ∨ r.user.login = ci.login ∨
             r.user.type = "Bot"
         | .bot => r.user.login = ci.login ∨
             (r.user.type = "Bot" ∧ jsIncludes r.user.login ci.name = true)
         | .user => r.user.id = ci.id) := by
  cases hty : ci.type <;>
    simp [filterReviewsByIdentity, hty, List.mem_filter, and_assoc] <;>
    tauto

/-- C10: a falsy `repoOwner`, `repoName` or `prNumber` makes
`canUseRequestChanges` return `false` immediately: the identity cache is
untouched (no resolution) and no platform API request is issued. -/
theorem canUseRequestChanges_falsy_guard (env : Env)
    (cache : Option Identity) (repoOwner repoName : Option String)
    (prNumber : Option Nat)
    (h : repoOwner = none ∨ repoOwner = some "" ∨ repoName = none ∨
         repoName = some "" ∨ prNumber = none ∨ prNumber = some 0) :
    canUseRequestChanges env cache repoOwner repoName prNumber
      = (false, cache, []) := by
  cases repoOwner <;> cases repoName <;> cases prNumber <;>
    rcases h with h|h|h|h|h|h <;>
      first
        | rfl
        | (injection h with h; subst h; simp [canUseRequestChanges])
        | exact absurd h (by simp)

/-- Witness for C10: a missing owner with otherwise well-formed
arguments yields `false`, an unchanged cache and an empty request log. -/
theorem canUseRequestChanges_falsy_guard_witness :
    canUseRequestChanges env0 none none (some "repo") (some 1)
      = (false, none, []) :=
  canUseRequestChanges_falsy_guard env0 none none (some "repo") (some 1)
    (Or.inl rfl)

/-- Once the supervision promise has settled, no later event changes the
outcome: the `close` and `error` handlers are guarded by the settled
state, and a signal only touches the `wasInterrupted` flag. -/
theorem sessionStep_preserves_outcome (s : SessionState) (e : SessionEvent)
    (o : SessionOutcome) (h : s.outcome = some o) :
    (sessionStep s e).outcome = some o := by
  cases e with
  | cancelSignal =>
    simp only [sessionStep]
    split <;> simp [h]
  | childClose code signal =>
    simp only [sessionStep, h]
  | childError msg =>
    simp only [sessionStep, h]

/-- Folding any tail of events after the promise settled keeps the
outcome. -/
theorem foldSession_preserves_outcome (events : List SessionEvent)
    (s : SessionState) (o : SessionOutcome) (h : s.outcome = some o) :
    (events.foldl sessionStep s).outcome = some o := by
  induction events generalizing s with
  | nil => exact h
  | cons e rest ih =>
    exact ih (sessionStep s e) (sessionStep_preserves_outcome s e o h)

/-- A run of cancellation signals while the promise is pending only
raises the `wasInterrupted` flag. -/
theorem foldSession_signals_only (events : List SessionEvent)
    (h : ∀ e ∈ events, e = SessionEvent.cancelSignal) (w : Bool) :
    events.foldl sessionStep
        { wasInterrupted := w, listenersActive := true, outcome := none }
      = { wasInterrupted := w || !events.isEmpty, listenersActive := true,
          outcome := none } := by
  induction events generalizing w with
  | nil => simp
  | cons e rest ih =>
    have he : e = SessionEvent.cancelSignal := h e (by simp)
    subst he
    rw [List.foldl_cons]
    have hstep : sessionStep
        { wasInterrupted := w, listenersActive := true, outcome := none }
        SessionEvent.cancelSignal
        = { wasInterrupted := true, listenersActive := true,
            outcome := none } := rfl
    rw [hstep, ih (fun e he => h e (List.mem_cons_of_mem _ he)) true]
    simp

/-- C3: a session that receives a cancellation signal after the agent is
spawned and before the child's exit is reported produces the outcome
`interrupted` — never `completed` — regardless of the reported exit code
(including 0) and of any events after settlement; the settled outcome is
unique. -/
theorem session_interrupted_precedence (pre mid post : List SessionEvent)
    (code : Option Int) (signal : Option String)
    (hpre : ∀ e ∈ pre, e = SessionEvent.cancelSignal)
    (hmid : ∀ e ∈ mid, e = SessionEvent.cancelSignal) :
    (runSession (pre ++ [SessionEvent.cancelSignal] ++ mid ++
        [SessionEvent.childClose code signal] ++ post)).outcome
      = some SessionOutcome.interruptedSession := by
  unfold runSession initialSessionState
  rw [List.foldl_append, List.foldl_append, List.foldl_append,
    List.foldl_append, foldSession_signals_only pre hpre false]
  simp only [List.foldl_cons, List.foldl_nil]
  have h1 : sessionStep
      { wasInterrupted := false || !pre.isEmpty, listenersActive := true,
        outcome := none } SessionEvent.cancelSignal
      = { wasInterrupted := true, listenersActive := true,
          outcome := none } := rfl
  rw [h1, foldSession_signals_only mid hmid true]
  simp only [Bool.true_or]
  have h2 : sessionStep
      { wasInterrupted := true, listenersActive := true, outcome := none }
      (SessionEvent.childClose code signal)
      = { wasInterrupted := true, listenersActive := false,
          outcome := some SessionOutcome.interruptedSession } := by
    simp [sessionStep]
  rw [h2]
  exact foldSession_preserves_outcome post _ _ rfl

/-- Witness for C3: one SIGINT/SIGTERM after spawn followed by a clean
exit-code-0 close still yields the interrupted outcome. -/
theorem session_interrupted_precedence_witness :
    (runSession [SessionEvent.cancelSignal,
        SessionEvent.childClose (some 0) none]).outcome
      = some SessionOutcome.interruptedSession :=
  session_interrupted_precedence [] [] [] (some 0) none
    (by intro e he; cases he) (by intro e he; cases he)

/-- On truthy arguments `canUseRequestChanges` computes
`permissionResult` of the three platform answers it consumes. -/
theorem canUseRequestChanges_characterization (env : Env)
    (cache : Option Identity) (owner repo : String) (pullNumber : Nat)
    (hg : ¬(owner = "" ∨ repo = "" ∨ pullNumber = 0)) :
    (canUseRequestChanges env cache (some owner) (some repo)
        (some pullNumber)).1
      = permissionResult (env.pullsGet owner repo pullNumber)
          ((getCurrentIdentity env cache owner repo).1)
          (env.appsGetRepoInstallation owner repo) := by
  simp only [canUseRequestChanges]
  rw [if_neg hg]
  rcases hgci : getCurrentIdentity env cache owner repo with
    ⟨idRes, cache', idLog⟩
  cases hpr : env.pullsGet owner repo pullNumber with
  | error e =>
    cases idRes <;> rfl
  | ok prAuthor =>
    cases idRes with
    | error e => rfl
    | ok ci =>
      cases hty : ci.type <;>
        simp [permissionResult, canAppRequestChanges, hty]

/-- C4: `canUseRequestChanges` implements the self-review rule: with the
PR fetch, identity resolution and (for the app case) the installation
lookup answering, the result equals the spec-side rule — a user/bot
identity may request changes iff the PR author's id differs from its
own, an app installed on an organization always may, and an app
installed on a user account may iff that user's id differs from the PR
author's. -/
theorem canUseRequestChanges_self_review_rule (env : Env)
    (cache : Option Identity) (owner repo : String) (pullNumber : Nat)
    (prAuthor : UserData) (ci : Identity) (installation : RepoInstallation)
    (howner : owner ≠ "") (hrepo : repo ≠ "") (hpn : pullNumber ≠ 0)
    (hpr : env.pullsGet owner repo pullNumber = .ok prAuthor)
    (hid : (getCurrentIdentity env cache owner repo).1 = .ok ci)
    (hinst : env.appsGetRepoInstallation owner repo = .ok installation) :
    (canUseRequestChanges env cache (some owner) (some repo)
        (some pullNumber)).1
      = specSelfReviewRule ci prAuthor.id installation.account := by
  rw [canUseRequestChanges_characterization env cache owner repo pullNumber
    (by simp [howner, hrepo, hpn]), hpr, hid, hinst]
  cases hty : ci.type <;>
    simp [permissionResult, specSelfReviewRule, hty, beq_iff_eq]

/-- Witness for C4: under `envPerm` the resolved identity is the sample
user, the PR author differs, and the theorem instance evaluates to
`true` on both sides. -/
theorem canUseRequestChanges_self_review_rule_witness :
    (canUseRequestChanges envPerm none (some "o") (some "r") (some 5)).1
      = specSelfReviewRule sampleIdentity sampleAuthor.id
          orgInstallation.account :=
  canUseRequestChanges_self_review_rule envPerm none "o" "r" 5
    sampleAuthor sampleIdentity orgInstallation
    (by decide) (by decide) (by decide) rfl rfl rfl

/-- C5: `canUseRequestChanges` is total and fail-closed: for every
platform behaviour it returns a boolean (the embedding's type), and it
returns `true` only when nothing failed internally — the arguments were
truthy, the PR fetch succeeded, identity resolution succeeded, and for
an app identity the installation lookup succeeded with an Organization
or User account.  Contrapositively, any internal failure yields
`false`. -/
theorem canUseRequestChanges_fail_closed (env : Env)
    (cache : Option Identity) (repoOwner repoName : Option String)
    (prNumber : Option Nat)
    (h : (canUseRequestChanges env cache repoOwner repoName prNumber).1
      = true) :
    ∃ owner repo pullNumber,
      repoOwner = some owner ∧ repoName = some repo ∧
      prNumber = some pullNumber ∧
      ¬(owner = "" ∨ repo = "" ∨ pullNumber = 0) ∧
      (∃ prAuthor, env.pullsGet owner repo pullNumber = .ok prAuthor) ∧
      ∃ ci, (getCurrentIdentity env cache owner repo).1 = .ok ci ∧
        (ci.type = IdKind.app → ∃ installation,
          env.appsGetRepoInstallation owner repo = .ok installation ∧
          (installation.account.type = "Organization" ∨
            installation.account.type = "User")) := by
  cases repoOwner with
  | none => simp [canUseRequestChanges] at h
  | some owner =>
  cases repoName with
  | none => simp [canUseRequestChanges] at h
  | some repo =>
  cases prNumber with
  | none => simp [canUseRequestChanges] at h
  | some pullNumber =>
  by_cases hg : owner = "" ∨ repo = "" ∨ pullNumber = 0
  · rw [show canUseRequestChanges env cache (some owner) (some repo)
        (some pullNumber) = (false, cache, []) by
      simp only [canUseRequestChanges]; rw [if_pos hg]] at h
    exact absurd h (by simp)
  · rw [canUseRequestChanges_characterization env cache owner repo
      pullNumber hg] at h
    refine ⟨owner, repo, pullNumber, rfl, rfl, rfl, hg, ?_⟩
    cases hpr : env.pullsGet owner repo pullNumber with
    | error e =>
      rw [hpr] at h
      cases hci : (getCurrentIdentity env cache owner repo).1 <;>
        rw [hci] at h <;> simp [permissionResult] at h
    | ok prAuthor =>
      rw [hpr] at h
      cases hci : (getCurrentIdentity env cache owner repo).1 with
      | error e =>
        rw [hci] at h
        simp [permissionResult] at h
      | ok ci =>
        rw [hci] at h
        refine ⟨⟨prAuthor, rfl⟩, ci, rfl, ?_⟩
        intro hty
        simp only [permissionResult, hty] at h
        cases hinst : env.appsGetRepoInstallation owner repo with
        | error e =>
          rw [hinst] at h
          simp at h
        | ok installation =>
          rw [hinst] at h
          refine ⟨installation, rfl, ?_⟩
          by_cases ho : installation.account.type = "Organization"
          · exact Or.inl ho
          · by_cases hu : installation.account.type = "User"
            · exact Or.inr hu
            · simp [beq_iff_eq, ho, hu] at h

/-- Witness for C5: under `env0` the call answers `true` (identity and
PR author differ), so the theorem yields the successful identity
resolution it promises. -/
theorem canUseRequestChanges_fail_closed_witness :
    ∃ ci, (getCurrentIdentity env0 none "o" "r").1 = Except.ok ci := by
  obtain ⟨ow, rp, pn, h1, h2, h3, -, -, ci, hci, -⟩ :=
    canUseRequestChanges_fail_closed env0 none (some "o") (some "r")
      (some 5) (by rfl)
  injection h1 with h1
  injection h2 with h2
  subst h1
  subst h2
  exact ⟨ci, hci⟩

/-- C9: batch deletion is best-effort: whenever the review-list fetch
and identity resolution answer, `removeAllPendingReviewsFromTool`
returns normally (an `.ok` per-item success/failure record, never a
propagated deletion error), the recorded outcome of each matched review
is exactly its own deletion's success — independent of the other
deletions — and a deletion request is issued for every matched review
whatever the platform answers to any of them. -/
theorem removeAllPendingReviews_best_effort (env : Env)
    (cache : Option Identity) (owner repo : String) (pullNumber : Nat)
    (reviews : List Review) (ci : Identity)
    (hrev : env.pullsListReviews owner repo pullNumber = .ok reviews)
    (hid : (getCurrentIdentity env cache owner repo).1 = .ok ci) :
    (removeAllPendingReviewsFromTool env cache owner repo pullNumber).1
      = .ok ((filterReviewsByIdentity reviews ci).map (fun r =>
          (r.id, (deletePendingReview env owner repo pullNumber r.id).1))) ∧
    ∀ r ∈ filterReviewsByIdentity reviews ci,
      ApiCall.pullsDeletePendingReview owner repo pullNumber r.id ∈
        (removeAllPendingReviewsFromTool env cache owner repo
          pullNumber).2.2 := by
  simp only [removeAllPendingReviewsFromTool, getPendingReviewsFromTool]
  rcases hgci : getCurrentIdentity env cache owner repo with
    ⟨idRes, cache', idLog⟩
  rw [hgci] at hid
  simp only at hid
  subst hid
  rw [hrev]
  simp only
  by_cases hlen : (filterReviewsByIdentity reviews ci).length = 0
  · rw [if_pos hlen]
    have hnil : filterReviewsByIdentity reviews ci = [] :=
      List.length_eq_zero.mp hlen
    simp [hnil]
  · rw [if_neg hlen]
    refine ⟨rfl, ?_⟩
    intro r hr
    simp only [List.mem_append]
    exact Or.inr (List.mem_map_of_mem _ hr)

/-- Witness for C9: with two matched pending reviews where the first
deletion fails with a simulated API error, the call still returns
normally, the second deletion succeeds, and both outcomes are
recorded. -/
theorem removeAllPendingReviews_best_effort_witness :
    (removeAllPendingReviewsFromTool envTwoPending none "o" "r" 3).1
      = .ok [(1, false), (2, true)] :=
  ((removeAllPendingReviews_best_effort envTwoPending none "o" "r" 3
      [reviewA, reviewB] sampleIdentity rfl rfl).1).trans (by rfl)

/-- C1 (code defect): in the shipped `bin/src/github-helper.js` the
first statement of `removeAllPendingReviewsFromTool` is a bare
`return;`, so reconciliation never deletes anything.  At a PR with one
pending review attributable to the resolved identity, the shipped
function issues no platform request at all, while its own unreachable
body (embedded as `removeAllPendingReviewsFromTool`) would have
submitted that review's deletion. -/
theorem removeAllPendingReviews_shipped_is_noop :
    filterReviewsByIdentity [reviewA] sampleIdentity = [reviewA] ∧
    removeAllPendingReviewsFromToolShipped envOnePending none "o" "r" 3
      = (.ok [], none, []) ∧
    ApiCall.pullsDeletePendingReview "o" "r" 3 1 ∈
      (removeAllPendingReviewsFromTool envOnePending none "o" "r" 3).2.2 := by
  refine ⟨by rfl, rfl, by decide⟩

/-- C2 (code defect): `generateCodexPrompt` declares only
`(rulesPath, prInfo)`, so the `canUseRequestChanges` argument passed by
`runCodexReview` is dropped and the generated task brief is identical
for both values of the flag — the Permission Evaluator's decision never
reaches the agent through the prompt. -/
theorem runCodexReviewPrompt_ignores_flag (rulesPath : String)
    (prInfo : PrInfo) (flag1 flag2 : Bool) :
    runCodexReviewPrompt rulesPath prInfo flag1
      = runCodexReviewPrompt rulesPath prInfo flag2 := rfl

end AiLinter
